import Mathlib

/-!
Verification of the playback-synchronized rendering engine in
`src/static/script.js` (n-pendulum animation front end).

JavaScript numbers are modelled as exact rationals (`ℚ`); `Math.floor` is
`Int.floor` and the JS remainder operator `%` is `jsMod` below (remainder
with the sign of the dividend).  Array reads `a[i]` are modelled with
`List.getD` at the indices the code actually visits.  The `animId` handle
returned by `requestAnimationFrame` and all pure UI effects (button labels,
the loading indicator, canvas strokes) are not part of the state model;
drawing passes are modelled as the lists of points/polylines they emit.
-/

namespace Pendulum

/-- Truncation toward zero, as JavaScript coerces for its `%` operator. -/
def jsTrunc (q : ℚ) : Int :=
  if 0 ≤ q then ⌊q⌋ else -⌊-q⌋

/-- The JavaScript remainder operator `a % b`: `a - b * trunc (a / b)`
(result carries the sign of the dividend). -/
def jsMod (a b : ℚ) : ℚ :=
  a - b * jsTrunc (a / b)

/-- `const CONFIG = { simDuration: 60.0, traceLen: 100, colors: [...] }`. -/
structure Config where
  simDuration : ℚ
  traceLen : Nat
  colors : List String
deriving DecidableEq

def CONFIG : Config :=
  { simDuration := 60
  , traceLen := 100
  , colors := ["#1f77b4", "#d62728", "#2ca02c", "#17becf", "#9467bd", "#e377c2", "#bcbd22"] }

/-- The payload `animation_data` consumed by the engine:
`{ n, limit, positions }` with `positions` a list of frames. -/
structure AnimData where
  n : Nat
  limit : ℚ
  positions : List (List ℚ)
deriving DecidableEq

/-- `let state = { animData: null, isPlaying: false, frameIdx: 0, playStartTime: 0 }`
(`animId`, the scheduler handle, is omitted). `frameIdx` is an integer because the
code only ever stores `Math.floor` results or `0` in it. -/
structure State where
  animData : Option AnimData
  isPlaying : Bool
  frameIdx : Int
  playStartTime : ℚ
deriving DecidableEq

def initState : State :=
  { animData := none, isPlaying := false, frameIdx := 0, playStartTime := 0 }

/-- `getScreenPos = (x, y, scale, w, h) => ({ x: x*scale + w/2, y: -y*scale + h/2 })`. -/
def getScreenPos (x y scale w h : ℚ) : ℚ × ℚ :=
  (x * scale + w / 2, -y * scale + h / 2)

/-- Frame indices visited by the trace loop of `drawFrame`:
`for (let j = Math.max(0, frameIdx - CONFIG.traceLen); j <= frameIdx; j++)`.
Natural subtraction truncates at zero exactly like `Math.max(0, ...)` does
for an in-range (nonnegative) `frameIdx`. -/
def traceIndices (frameIdx : Nat) : List Nat :=
  let startTrace := frameIdx - CONFIG.traceLen
  List.range' startTrace (frameIdx - startTrace + 1)

/-- The trace polyline of `drawFrame`: the last pendulum's screen position
(`endIdx = (n - 1) * 2`) at each visited frame. -/
def tracePoints (d : AnimData) (frameIdx : Nat) (scale w h : ℚ) : List (ℚ × ℚ) :=
  (traceIndices frameIdx).map fun j =>
    let p := d.positions.getD j []
    let endIdx := (d.n - 1) * 2
    getScreenPos (p.getD endIdx 0) (p.getD (endIdx + 1) 0) scale w h

/-- Screen positions of the `n` bodies at frame `frameIdx`
(`pos = positions[frameIdx]`, bodies read at `pos[2k], pos[2k+1]`),
shared by the rod polyline and the mass markers of `drawFrame`. -/
def bodyPoints (d : AnimData) (frameIdx : Nat) (scale w h : ℚ) : List (ℚ × ℚ) :=
  let pos := d.positions.getD frameIdx []
  (List.range d.n).map fun k =>
    getScreenPos (pos.getD (2 * k) 0) (pos.getD (2 * k + 1) 0) scale w h

/-- What one call of `drawFrame` paints on the animation canvas. -/
structure FrameRender where
  scale : ℚ
  trace : List (ℚ × ℚ)
  rods : List (ℚ × ℚ)
  markers : List (ℚ × ℚ)
deriving DecidableEq

/-- `drawFrame`: returns nothing when `!state.animData` (the early return);
otherwise `scale = (w / 2) / animData.limit` with no guard on `limit`,
then the trace, the rod polyline from the pivot `(w/2, h/2)`, and the
markers (pivot plus each body). -/
def drawFrame (animData : Option AnimData) (frameIdx : Nat) (w h : ℚ) :
    Option FrameRender :=
  match animData with
  | none => none
  | some d =>
    let scale := (w / 2) / d.limit
    some { scale := scale
         , trace := tracePoints d frameIdx scale w h
         , rods := (w / 2, h / 2) :: bodyPoints d frameIdx scale w h
         , markers := (w / 2, h / 2) :: bodyPoints d frameIdx scale w h }

/-- The trajectory polyline of body `k` in `drawGraph`:
`for (let j = 0; j <= frameIdx; j++)` reading `p[2k], p[2k+1]`. -/
def trajPoints (d : AnimData) (k frameIdx : Nat) (scale w h : ℚ) : List (ℚ × ℚ) :=
  (List.range (frameIdx + 1)).map fun j =>
    let p := d.positions.getD j []
    getScreenPos (p.getD (2 * k) 0) (p.getD (2 * k + 1) 0) scale w h

/-- Per-body series drawn by `drawGraph`: for `k = 0 .. n-1`, the stroke color
`CONFIG.colors[k % CONFIG.colors.length]` and the polyline of frames `0..frameIdx`. -/
def graphSeries (d : AnimData) (frameIdx : Nat) (w h : ℚ) :
    List (String × List (ℚ × ℚ)) :=
  (List.range d.n).map fun k =>
    (CONFIG.colors.getD (k % CONFIG.colors.length) "",
     trajPoints d k frameIdx ((min w h / 2) / d.limit) w h)

/-- What one call of `drawGraph` paints on the graph canvas. -/
structure GraphRender where
  scale : ℚ
  series : List (String × List (ℚ × ℚ))
deriving DecidableEq

/-- `drawGraph`: early return when `!state.animData`; otherwise
`scale = (Math.min(w, h) / 2) / animData.limit`, again with no guard on
`limit`, then one colored trajectory per body. -/
def drawGraph (animData : Option AnimData) (frameIdx : Nat) (w h : ℚ) :
    Option GraphRender :=
  match animData with
  | none => none
  | some d =>
    some { scale := (min w h / 2) / d.limit
         , series := graphSeries d frameIdx w h }

/-- The state transition of one `animate` pass at wall-clock `now`
(`Date.now()` in milliseconds):
`if (state.isPlaying && state.animData) { elapsed = (now - playStartTime)/1000;
progress = (elapsed / CONFIG.simDuration) % 1;
frameIdx = Math.floor(progress * positions.length); }`. -/
def tick (now : ℚ) (s : State) : State :=
  match s.animData, s.isPlaying with
  | some d, true =>
    let elapsed := (now - s.playStartTime) / 1000
    let progress := jsMod (elapsed / CONFIG.simDuration) 1
    { s with frameIdx := ⌊progress * (d.positions.length : ℚ)⌋ }
  | _, _ => s

/-- The synchronous part of the run-button click handler, before the fetch
resolves: `state.isPlaying = false` (plus showing the loader and relabelling
the button, which are pure UI). -/
def runClickSync (s : State) : State :=
  { s with isPlaying := false }

/-- The fetch success handler: `state.animData = data.animation_data;
state.frameIdx = 0; state.isPlaying = true; state.playStartTime = Date.now()`.
There is no check of any kind on the received dataset. -/
def loadSuccess (now : ℚ) (d : AnimData) (s : State) : State :=
  { s with animData := some d, frameIdx := 0, isPlaying := true, playStartTime := now }

/-- Outcome of the `/simulate` fetch: a non-OK response whose text becomes the
thrown error, an OK response with `success: false` and an optional `message`,
or an OK response carrying the dataset. -/
inductive FetchResult where
  | transportFail (body : String)
  | apiFail (message : Option String)
  | ok (d : AnimData)
deriving DecidableEq

def FetchResult.isFailure : FetchResult → Bool
  | .ok _ => false
  | _ => true

/-- The `err.message` reaching the catch handler:
`throw new Error(t)` for a non-OK response,
`throw new Error(data.message || 'Unknown error')` for `success: false`. -/
def failMessage : FetchResult → String
  | .transportFail t => t
  | .apiFail m => m.getD "Unknown error"
  | .ok _ => ""

/-- Resolution of the fetch: on success the load handler runs; on either kind
of failure the state is untouched by the handlers and the catch shows
`alert('Error: ' + err.message)`, returned here as the message. -/
def handleFetch (now : ℚ) (s : State) (r : FetchResult) : State × Option String :=
  match r with
  | .ok d => (loadSuccess now d s, none)
  | .transportFail t => (s, some ("Error: " ++ t))
  | .apiFail m => (s, some ("Error: " ++ m.getD "Unknown error"))

/-- A whole run-button interaction: the synchronous prefix (pause, loader)
followed by the fetch resolution `r` at time `now`. -/
def runClick (now : ℚ) (s : State) (r : FetchResult) : State × Option String :=
  handleFetch now (runClickSync s) r

/-- The play/pause-button click handler.  Returns the new state and whether
the handler delegated to the run button (`if (!state.animData) return
els.btns.run.click()` — only its synchronous prefix happens before the fetch).
On resume (`!state.isPlaying`):
`currentProg = frameIdx / (positions.length - 1);
playStartTime = now - currentProg * CONFIG.simDuration * 1000`,
then `isPlaying = !isPlaying` in both directions.
Rational division renders the resume quotient's `0/0` (a one-frame dataset) as
`0` where JavaScript yields NaN; `playClickF` below models that path faithfully. -/
def playClick (now : ℚ) (s : State) : State × Bool :=
  match s.animData with
  | none => (runClickSync s, true)
  | some d =>
    let s1 :=
      if s.isPlaying then s
      else
        let currentProg := (s.frameIdx : ℚ) / ((d.positions.length : ℚ) - 1)
        { s with playStartTime := now - currentProg * CONFIG.simDuration * 1000 }
    ({ s1 with isPlaying := !s1.isPlaying }, false)

/-- The reset-button click handler: `frameIdx = 0;
if (isPlaying) playStartTime = Date.now()`. -/
def resetClick (now : ℚ) (s : State) : State :=
  let s1 := { s with frameIdx := 0 }
  if s1.isPlaying then { s1 with playStartTime := now } else s1

/-- States reachable from page load by the event handlers and the animation
loop, with a nondecreasing wall clock (`Date.now()` never runs backwards in
the single-threaded event model; each constructor fires at instant `now` no
earlier than the previous event `t`). -/
inductive Reachable : ℚ → State → Prop where
  | initStep : Reachable 0 initState
  | tickStep {t : ℚ} {s : State} (now : ℚ) :
      Reachable t s → t ≤ now → Reachable now (tick now s)
  | playStep {t : ℚ} {s : State} (now : ℚ) :
      Reachable t s → t ≤ now → Reachable now (playClick now s).1
  | resetStep {t : ℚ} {s : State} (now : ℚ) :
      Reachable t s → t ≤ now → Reachable now (resetClick now s)
  | runStep {t : ℚ} {s : State} (now : ℚ) (r : FetchResult) :
      Reachable t s → t ≤ now → Reachable now (runClick now s r).1

/-- Inductive invariant: the playback origin never lies in the future, the
frame index is nonnegative, and with a dataset loaded it is below
`max 1 positions.length` (so below `positions.length` whenever frames exist,
and pinned to `0` for an empty frame list). -/
def Inv (t : ℚ) (s : State) : Prop :=
  s.playStartTime ≤ t ∧ 0 ≤ s.frameIdx ∧
    ∀ d, s.animData = some d → s.frameIdx < max 1 (d.positions.length : Int)

/-- End-to-end scenario 1 of the spec: one body, `limit = 2`,
frames `[[1,0],[0,1],[-1,0]]`. -/
def scenData : AnimData :=
  { n := 1, limit := 2, positions := [[1, 0], [0, 1], [-1, 0]] }

/-- A syntactically well-formed payload with an empty frame list. -/
def emptyData : AnimData :=
  { n := 1, limit := 1, positions := [] }

/-- A payload with a degenerate spatial bound `limit = 0`. -/
def zeroLimitData : AnimData :=
  { n := 1, limit := 0, positions := [[1, 0]] }

/-- Load `scenData` at time `0`: playing from frame `0` with origin `0`. -/
def c1s0 : State := (runClick 0 initState (FetchResult.ok scenData)).1

/-- Tick at `t = 55000` ms: `progress = 55/60`, `frameIdx = ⌊(55/60)*3⌋ = 2`. -/
def c1s1 : State := tick 55000 c1s0

/-- Click play at `t = 55000`: pause at frame `2` (the last frame). -/
def c1s2 : State := (playClick 55000 c1s1).1

/-- Click play again at the same instant: resume;
`currentProg = 2 / (3 - 1) = 1`, `playStartTime = 55000 - 60000 = -5000`. -/
def c1s3 : State := (playClick 55000 c1s2).1

/-- The next tick, still at `t = 55000`. -/
def c1s4 : State := tick 55000 c1s3

/-- A playing state over `scenData`, paused mid-animation at frame `1`. -/
def c4s : State :=
  { animData := some scenData, isPlaying := true, frameIdx := 1, playStartTime := 0 }

/-- A playing state over `scenData` with origin `0`, used to exercise `tick`. -/
def c2s : State :=
  { animData := some scenData, isPlaying := true, frameIdx := 0, playStartTime := 0 }

/-!
The model above uses total rational division, which renders `0/0` as `0` where
IEEE doubles give NaN.  The definitions below re-embed the playback clock with
the non-finite values made explicit, to capture faithfully what the source does
when the resume quotient `frameIdx / (positions.length - 1)` divides by zero
(a one-frame dataset): `none` stands for a non-finite number.  Collapsing NaN
and the infinities into one `none` is observationally exact for this program:
the only later uses of the affected numbers are `now - origin` and the `%` in
the next tick, and in JavaScript both `NaN % 1` and `Infinity % 1` are NaN, so
every non-finite origin makes the next computed frame index NaN.
-/

/-- The division in the resume handler with JavaScript semantics for a zero
divisor: `0/0` is NaN and `x/0` is an infinity, both collapsed to `none`. -/
def jsDivF (a b : ℚ) : Option ℚ :=
  if b = 0 then none else some (a / b)

/-- `state` with IEEE special values explicit: `frameIdx = none` is a NaN frame
index, `playStartTime = none` a non-finite playback origin. -/
structure StateF where
  animData : Option AnimData
  isPlaying : Bool
  frameIdx : Option Int
  playStartTime : Option ℚ
deriving DecidableEq

def initStateF : StateF :=
  { animData := none, isPlaying := false, frameIdx := some 0, playStartTime := some 0 }

/-- `animate` over `StateF`.  A non-finite origin makes `elapsed` non-finite,
`progress = (elapsed / 60) % 1` NaN (JS: `NaN % 1` and `Infinity % 1` are NaN),
and `Math.floor(NaN * length)` NaN: the frame index becomes NaN. -/
def tickF (now : ℚ) (s : StateF) : StateF :=
  match s.animData, s.isPlaying with
  | some d, true =>
    match s.playStartTime with
    | none => { s with frameIdx := none }
    | some pst =>
      let elapsed := (now - pst) / 1000
      let progress := jsMod (elapsed / CONFIG.simDuration) 1
      { s with frameIdx := some ⌊progress * (d.positions.length : ℚ)⌋ }
  | _, _ => s

/-- The play/pause click handler over `StateF`.  On resume the source computes
`currentProg = frameIdx / (positions.length - 1)`: a NaN frame index stays NaN,
a one-frame dataset divides by zero, and in either case the new origin
`now - currentProg * 60 * 1000` is non-finite (`none`). -/
def playClickF (now : ℚ) (s : StateF) : StateF × Bool :=
  match s.animData with
  | none => ({ s with isPlaying := false }, true)
  | some d =>
    let s1 :=
      if s.isPlaying then s
      else
        let currentProg : Option ℚ :=
          match s.frameIdx with
          | none => none
          | some fi => jsDivF (fi : ℚ) ((d.positions.length : ℚ) - 1)
        { s with playStartTime :=
            currentProg.map fun p => now - p * CONFIG.simDuration * 1000 }
    ({ s1 with isPlaying := !s1.isPlaying }, false)

/-- The fetch success handler over `StateF` (unconditional, as in the source). -/
def loadSuccessF (now : ℚ) (d : AnimData) (s : StateF) : StateF :=
  { s with animData := some d, frameIdx := some 0, isPlaying := true,
           playStartTime := some now }

/-- A whole run-button interaction over `StateF`: the synchronous
`isPlaying = false` prefix, then the fetch resolution. -/
def runClickF (now : ℚ) (s : StateF) (r : FetchResult) : StateF × Option String :=
  match r with
  | .ok d => (loadSuccessF now d { s with isPlaying := false }, none)
  | .transportFail t => ({ s with isPlaying := false }, some ("Error: " ++ t))
  | .apiFail m => ({ s with isPlaying := false }, some ("Error: " ++ m.getD "Unknown error"))

/-- The reset-button click handler over `StateF`. -/
def resetClickF (now : ℚ) (s : StateF) : StateF :=
  let s1 := { s with frameIdx := some 0 }
  if s1.isPlaying then { s1 with playStartTime := some now } else s1

/-- Reachability for the faithful model, with a nondecreasing wall clock as in
`Reachable`. -/
inductive ReachableF : ℚ → StateF → Prop where
  | initStep : ReachableF 0 initStateF
  | tickStep {t : ℚ} {s : StateF} (now : ℚ) :
      ReachableF t s → t ≤ now → ReachableF now (tickF now s)
  | playStep {t : ℚ} {s : StateF} (now : ℚ) :
      ReachableF t s → t ≤ now → ReachableF now (playClickF now s).1
  | resetStep {t : ℚ} {s : StateF} (now : ℚ) :
      ReachableF t s → t ≤ now → ReachableF now (resetClickF now s)
  | runStep {t : ℚ} {s : StateF} (now : ℚ) (r : FetchResult) :
      ReachableF t s → t ≤ now → ReachableF now (runClickF now s r).1

/-- A well-formed dataset with exactly one frame. -/
def oneFrameData : AnimData :=
  { n := 1, limit := 1, positions := [[1, 0]] }

/-- Load `oneFrameData` at time `0`: playing at frame `0`, origin `0`. -/
def nanS0 : StateF := (runClickF 0 initStateF (FetchResult.ok oneFrameData)).1

/-- Click play at `t = 0`: paused at frame `0`. -/
def nanS1 : StateF := (playClickF 0 nanS0).1

/-- Click play again at `t = 0`: resume computes `0 / (1 - 1)`, a NaN origin. -/
def nanS2 : StateF := (playClickF 0 nanS1).1

/-- The next tick at `t = 0`: the frame index becomes NaN. -/
def nanS3 : StateF := tickF 0 nanS2

theorem jsMod_one_of_nonneg (x : ℚ) (hx : 0 ≤ x) : jsMod x 1 = Int.fract x := by
  rw [jsMod, jsTrunc, div_one, if_pos hx, one_mul, Int.self_sub_floor]

theorem jsMod_one_nonneg (x : ℚ) (hx : 0 ≤ x) : 0 ≤ jsMod x 1 ∧ jsMod x 1 < 1 := by
  rw [jsMod_one_of_nonneg x hx]
  exact ⟨Int.fract_nonneg x, Int.fract_lt_one x⟩

theorem floor_progress_bounds (p : ℚ) (L : Nat) (h0 : 0 ≤ p) (h1 : p < 1) :
    0 ≤ ⌊p * (L : ℚ)⌋ ∧ ⌊p * (L : ℚ)⌋ < max 1 (L : Int) := by
  refine ⟨Int.floor_nonneg.mpr (mul_nonneg h0 (by positivity)), ?_⟩
  rcases Nat.eq_zero_or_pos L with hL | hL
  · subst hL
    simp
  · have hLq : (0 : ℚ) < (L : ℚ) := by exact_mod_cast hL
    have hpL : p * (L : ℚ) < ((L : Int) : ℚ) := by
      push_cast
      calc p * (L : ℚ) < 1 * (L : ℚ) := mul_lt_mul_of_pos_right h1 hLq
        _ = (L : ℚ) := one_mul _
    exact lt_of_lt_of_le (Int.floor_lt.mpr hpL) (le_max_right _ _)

theorem inv_tick {t now : ℚ} {s : State} (h : Inv t s) (ht : t ≤ now) :
    Inv now (tick now s) := by
  obtain ⟨ad, ip, fi, pst⟩ := s
  obtain ⟨hpst, hf0, hfd⟩ := h
  have hpst0 : pst ≤ t := hpst
  have hf0' : (0 : Int) ≤ fi := hf0
  have hpst' : pst ≤ now := le_trans hpst0 ht
  rcases ad with _ | d
  · exact ⟨hpst', hf0', fun d' hd' => hfd d' hd'⟩
  · cases ip
    · exact ⟨hpst', hf0', fun d' hd' => hfd d' hd'⟩
    · have hx : 0 ≤ (now - pst) / 1000 / CONFIG.simDuration := by
        have h60 : CONFIG.simDuration = 60 := rfl
        have h1 : (0 : ℚ) ≤ now - pst := by linarith
        rw [h60]
        positivity
      obtain ⟨hp0, hp1⟩ := jsMod_one_nonneg ((now - pst) / 1000 / CONFIG.simDuration) hx
      obtain ⟨hq0, hq1⟩ :=
        floor_progress_bounds (jsMod ((now - pst) / 1000 / CONFIG.simDuration) 1)
          d.positions.length hp0 hp1
      refine ⟨hpst', hq0, ?_⟩
      intro d' hd'
      have hdd : d = d' := Option.some.inj hd'
      subst hdd
      exact hq1

theorem inv_play {t now : ℚ} {s : State} (h : Inv t s) (ht : t ≤ now) :
    Inv now (playClick now s).1 := by
  obtain ⟨ad, ip, fi, pst⟩ := s
  obtain ⟨hpst, hf0, hfd⟩ := h
  have hpst0 : pst ≤ t := hpst
  have hf0' : (0 : Int) ≤ fi := hf0
  have hpst' : pst ≤ now := le_trans hpst0 ht
  rcases ad with _ | d
  · exact ⟨hpst', hf0', fun d' hd' => hfd d' hd'⟩
  · cases ip
    · -- resume: the new origin is `now - currentProg * 60 * 1000 ≤ now`
      have hfi_lt : fi < max 1 (d.positions.length : Int) := hfd d rfl
      have hprog : 0 ≤ (fi : ℚ) / ((d.positions.length : ℚ) - 1) := by
        rcases eq_or_lt_of_le hf0' with hfi | hfi
        · rw [← hfi]
          simp
        · have hL2 : 2 ≤ d.positions.length := by
            by_contra hc
            push_neg at hc
            have hle : (d.positions.length : Int) ≤ 1 := by
              have := Nat.lt_succ_iff.mp hc
              exact_mod_cast this
            rw [max_eq_left hle] at hfi_lt
            omega
          have hden : (1 : ℚ) ≤ (d.positions.length : ℚ) - 1 := by
            have h2 : (2 : ℚ) ≤ (d.positions.length : ℚ) := by exact_mod_cast hL2
            linarith
          exact div_nonneg (by exact_mod_cast hf0') (by linarith)
      have h60 : CONFIG.simDuration = 60 := rfl
      have hnn : 0 ≤ (fi : ℚ) / ((d.positions.length : ℚ) - 1) * CONFIG.simDuration * 1000 := by
        rw [h60]
        positivity
      refine ⟨?_, hf0', ?_⟩
      · show now - (fi : ℚ) / ((d.positions.length : ℚ) - 1) * CONFIG.simDuration * 1000 ≤ now
        linarith
      · intro d' hd'
        have hdd : d = d' := Option.some.inj hd'
        subst hdd
        exact hfd d rfl
    · refine ⟨hpst', hf0', ?_⟩
      intro d' hd'
      have hdd : d = d' := Option.some.inj hd'
      subst hdd
      exact hfd d rfl

theorem inv_reset {t now : ℚ} {s : State} (h : Inv t s) (ht : t ≤ now) :
    Inv now (resetClick now s) := by
  obtain ⟨ad, ip, fi, pst⟩ := s
  obtain ⟨hpst, _, _⟩ := h
  have hpst0 : pst ≤ t := hpst
  have hpst' : pst ≤ now := le_trans hpst0 ht
  cases ip
  · exact ⟨hpst', le_refl 0, fun d' _ => lt_of_lt_of_le zero_lt_one (le_max_left _ _)⟩
  · exact ⟨le_refl now, le_refl 0, fun d' _ => lt_of_lt_of_le zero_lt_one (le_max_left _ _)⟩

theorem inv_run {t now : ℚ} {s : State} (r : FetchResult) (h : Inv t s) (ht : t ≤ now) :
    Inv now (runClick now s r).1 := by
  obtain ⟨ad, ip, fi, pst⟩ := s
  obtain ⟨hpst, hf0, hfd⟩ := h
  have hpst0 : pst ≤ t := hpst
  have hf0' : (0 : Int) ≤ fi := hf0
  have hpst' : pst ≤ now := le_trans hpst0 ht
  rcases r with b | m | d
  · exact ⟨hpst', hf0', fun d' hd' => hfd d' hd'⟩
  · exact ⟨hpst', hf0', fun d' hd' => hfd d' hd'⟩
  · exact ⟨le_refl now, le_refl 0, fun d' _ => lt_of_lt_of_le zero_lt_one (le_max_left _ _)⟩

theorem reachable_inv {t : ℚ} {s : State} (h : Reachable t s) : Inv t s := by
  induction h with
  | initStep =>
    exact ⟨le_refl 0, le_refl 0, fun d hd => by simp [initState] at hd⟩
  | tickStep now _ hle ih => exact inv_tick ih hle
  | playStep now _ hle ih => exact inv_play ih hle
  | resetStep now _ hle ih => exact inv_reset ih hle
  | runStep now r _ hle ih => exact inv_run r ih hle

/-- Claim C1 (code bug): pausing and resuming at the same wall-clock instant, followed
by a tick at that instant, is supposed to leave `currentFrameIndex` unchanged, but the
resume handler divides by `positions.length - 1` while `tick` multiplies by
`positions.length`.  Concretely: load the 3-frame dataset at time `0`, tick at
`t = 55000` ms (frame `2`, the last frame), pause and resume at `t`, tick at `t` —
the frame index jumps from `2` to `0`. -/
theorem c1_pause_resume_jump :
    c1s1.frameIdx = 2 ∧ c1s2.frameIdx = 2 ∧ c1s2.isPlaying = false ∧
    c1s3.frameIdx = 2 ∧ c1s3.isPlaying = true ∧ c1s4.frameIdx = 0 := by
  norm_num [c1s4, c1s3, c1s2, c1s1, c1s0, tick, playClick, runClick, runClickSync,
    handleFetch, loadSuccess, initState, jsMod, jsTrunc, CONFIG, scenData]

/-- Claim C2: with a dataset loaded, a tick while playing sets `frameIdx` to
`⌊((now - playStartTime)/1000 / simDuration mod 1) * positions.length⌋` and changes
nothing else; a tick while not playing is the identity on the state. -/
theorem c2_tick_formula (s : State) (d : AnimData) (now : ℚ) (hd : s.animData = some d) :
    (s.isPlaying = true →
      tick now s =
        { s with frameIdx :=
            ⌊jsMod ((now - s.playStartTime) / 1000 / CONFIG.simDuration) 1 *
              (d.positions.length : ℚ)⌋ }) ∧
    (s.isPlaying = false → tick now s = s) := by
  obtain ⟨ad, ip, fi, pst⟩ := s
  have had : ad = some d := hd
  subst had
  cases ip
  · exact ⟨fun hcon => (nomatch hcon), fun _ => rfl⟩
  · exact ⟨fun _ => rfl, fun hcon => (nomatch hcon)⟩

theorem c2_tick_formula_witness :
    tick 20000 c2s =
      { c2s with frameIdx :=
          ⌊(jsMod ((20000 - c2s.playStartTime) / 1000 / CONFIG.simDuration) 1 *
            (scenData.positions.length : ℚ))⌋ } :=
  (c2_tick_formula c2s scenData 20000 rfl).1 rfl

/-- In the exact-arithmetic idealization (where `0/0` reduces to `0`, hiding the
JavaScript NaN of a one-frame resume — the faithful account is
`c3_nan_at_one_frame`), every reachable state with a non-empty loaded dataset
satisfies `0 ≤ frameIdx < positions.length`.  This shows the invariant fails
only through the non-finite path of the `length - 1` resume quotient. -/
theorem idealized_frame_index_invariant (t : ℚ) (s : State) (h : Reachable t s)
    (d : AnimData) (hd : s.animData = some d) (hne : d.positions ≠ []) :
    0 ≤ s.frameIdx ∧ s.frameIdx < (d.positions.length : Int) := by
  obtain ⟨_, hf0, hfd⟩ := reachable_inv h
  refine ⟨hf0, ?_⟩
  have hfi := hfd d hd
  have hL : 1 ≤ d.positions.length := List.length_pos.mpr hne
  have hmax : max 1 (d.positions.length : Int) = (d.positions.length : Int) :=
    max_eq_right (by exact_mod_cast hL)
  rw [hmax] at hfi
  exact hfi

/-- Claim C3 (code bug): the invariant `0 ≤ frameIdx < frames.length` is NOT
preserved by every operation.  With a loaded one-frame dataset — non-empty, so
inside the claim's scope — pause then resume computes
`currentProg = 0 / (positions.length - 1) = 0/0`, NaN in JavaScript, so the
playback origin becomes non-finite and the next tick sets the frame index to
NaN, which is not an integer in `[0, 1)`.  The violating state is reachable:
load the dataset, click play twice, tick, all at `t = 0`. -/
theorem c3_nan_at_one_frame :
    ReachableF 0 nanS3 ∧
    nanS3.animData = some oneFrameData ∧
    oneFrameData.positions ≠ [] ∧
    nanS2.playStartTime = none ∧
    nanS3.frameIdx = none ∧
    (¬ ∃ fi : Int, nanS3.frameIdx = some fi ∧ 0 ≤ fi ∧
      fi < (oneFrameData.positions.length : Int)) := by
  have e2 : nanS2 =
      { animData := some oneFrameData, isPlaying := true, frameIdx := some 0,
        playStartTime := none } := by
    norm_num [nanS2, nanS1, nanS0, playClickF, runClickF, loadSuccessF, initStateF,
      jsDivF, oneFrameData]
  have e3 : nanS3 =
      { animData := some oneFrameData, isPlaying := true, frameIdx := none,
        playStartTime := none } := by
    rw [nanS3, e2]
    rfl
  refine ⟨?_, by rw [e3], by simp [oneFrameData], by rw [e2], by rw [e3], ?_⟩
  · exact ReachableF.tickStep 0
      (ReachableF.playStep 0
        (ReachableF.playStep 0
          (ReachableF.runStep 0 (FetchResult.ok oneFrameData) ReachableF.initStep
            (le_refl 0))
          (le_refl 0))
        (le_refl 0))
      (le_refl 0)
  · rintro ⟨fi, hfi, -, -⟩
    rw [e3] at hfi
    cases hfi

/-- Claim C4, counterexample: a failed run does NOT leave the playback state exactly
as it was — the run handler sets `isPlaying = false` before issuing the fetch and the
failure path never restores it.  From a playing state, a fetch failing with message
`invalid mass` yields a different state. -/
theorem c4_run_failure_mutates_state :
    (runClick 5 c4s (FetchResult.apiFail (some "invalid mass"))).1 ≠ c4s := by
  intro hEq
  have hplay : (runClick 5 c4s (FetchResult.apiFail (some "invalid mass"))).1.isPlaying =
      c4s.isPlaying := by rw [hEq]
  simp [runClick, handleFetch, runClickSync, c4s] at hplay

/-- Claim C4 as amended: on any failed run the single alert message is
`"Error: " ++ message`, and the dataset, frame index and playback origin are left
exactly as before the request; but `isPlaying` is unconditionally forced to `false`
when the request is issued and remains `false` after the failure. -/
theorem c4_run_failure_amended (now : ℚ) (s : State) (r : FetchResult)
    (h : r.isFailure = true) :
    (runClick now s r).1.animData = s.animData ∧
    (runClick now s r).1.frameIdx = s.frameIdx ∧
    (runClick now s r).1.playStartTime = s.playStartTime ∧
    (runClick now s r).1.isPlaying = false ∧
    (runClick now s r).2 = some ("Error: " ++ failMessage r) := by
  rcases r with b | m | d
  · exact ⟨rfl, rfl, rfl, rfl, rfl⟩
  · exact ⟨rfl, rfl, rfl, rfl, rfl⟩
  · cases h

theorem c4_run_failure_amended_witness :
    (runClick 5 c4s (FetchResult.apiFail (some "invalid mass"))).1.animData = c4s.animData ∧
    (runClick 5 c4s (FetchResult.apiFail (some "invalid mass"))).1.frameIdx = c4s.frameIdx ∧
    (runClick 5 c4s (FetchResult.apiFail (some "invalid mass"))).1.playStartTime =
      c4s.playStartTime ∧
    (runClick 5 c4s (FetchResult.apiFail (some "invalid mass"))).1.isPlaying = false ∧
    (runClick 5 c4s (FetchResult.apiFail (some "invalid mass"))).2 =
      some ("Error: " ++ failMessage (FetchResult.apiFail (some "invalid mass"))) :=
  c4_run_failure_amended 5 c4s (FetchResult.apiFail (some "invalid mass")) rfl

/-- Claim C5, counterexample: the success handler performs no malformed-data check,
so loading a dataset with an empty frame list is NOT a silent no-op: it replaces the
stored dataset (here, from no dataset to `emptyData`). -/
theorem c5_load_empty_not_noop :
    loadSuccess 7 emptyData initState ≠ initState := by
  intro hEq
  have had : (loadSuccess 7 emptyData initState).animData = initState.animData := by rw [hEq]
  simp [loadSuccess, initState] at had

/-- Claim C5 as amended: `load` unconditionally replaces the dataset, resets
`frameIdx` to `0`, sets `isPlaying` to `true` and `playStartTime` to `now`, for every
incoming dataset — including one with an empty frame list; no guard exists. -/
theorem c5_load_unconditional (now : ℚ) (d : AnimData) (s : State) :
    loadSuccess now d s =
      { animData := some d, isPlaying := true, frameIdx := 0, playStartTime := now } := by
  obtain ⟨ad, ip, fi, pst⟩ := s
  rfl

/-- Claim C6, counterexample: with `spatialLimit = 0` neither renderer skips drawing
nor treats the scale as `1`; both compute the unguarded quotient and emit geometry
(the rod polyline still has its pivot and one body point). -/
theorem c6_zero_limit_still_draws :
    (drawFrame (some zeroLimitData) 0 400 400).isSome = true ∧
    (drawFrame (some zeroLimitData) 0 400 400).map FrameRender.scale ≠ some 1 ∧
    (drawFrame (some zeroLimitData) 0 400 400).map (fun r => r.rods.length) = some 2 ∧
    (drawGraph (some zeroLimitData) 0 400 400).isSome = true := by
  refine ⟨rfl, ?_, ?_, rfl⟩
  · intro hEq
    have : ((400 : ℚ) / 2) / zeroLimitData.limit = 1 := Option.some.inj hEq
    rw [show zeroLimitData.limit = 0 from rfl] at this
    norm_num at this
  · simp [drawFrame, bodyPoints, zeroLimitData]

/-- Claim C6 as amended: both rendering passes compute their scale as an unguarded
division by `spatialLimit` and draw whenever a dataset is present, also for a zero or
negative `spatialLimit` (in JavaScript a zero limit makes this division non-finite);
no skip-or-treat-as-1 fallback exists. -/
theorem c6_unguarded_scale (d : AnimData) (f : Nat) (w h : ℚ) (hl : d.limit ≤ 0) :
    (drawFrame (some d) f w h).map FrameRender.scale = some ((w / 2) / d.limit) ∧
    (drawGraph (some d) f w h).map GraphRender.scale = some ((min w h / 2) / d.limit) ∧
    (drawFrame (some d) f w h).isSome = true ∧
    (drawGraph (some d) f w h).isSome = true :=
  ⟨rfl, rfl, rfl, rfl⟩

theorem c6_unguarded_scale_witness :
    (drawFrame (some zeroLimitData) 0 400 400).map FrameRender.scale =
      some ((400 / 2) / zeroLimitData.limit) ∧
    (drawGraph (some zeroLimitData) 0 400 400).map GraphRender.scale =
      some ((min 400 400 / 2) / zeroLimitData.limit) ∧
    (drawFrame (some zeroLimitData) 0 400 400).isSome = true ∧
    (drawGraph (some zeroLimitData) 0 400 400).isSome = true :=
  c6_unguarded_scale zeroLimitData 0 400 400 (by norm_num [zeroLimitData])

/-- Claim C7: the coordinate mapper is exactly
`(x*scale + w/2, -y*scale + h/2)`; for the scenario dataset (`limit = 2`) on a
400-by-400 surface `drawFrame` derives scale `100`, and body position `(-1, 0)` maps
to pixel `(100, 200)`. -/
theorem c7_mapper :
    (∀ x y scale w h : ℚ,
      getScreenPos x y scale w h = (x * scale + w / 2, -y * scale + h / 2)) ∧
    (drawFrame (some scenData) 2 400 400).map FrameRender.scale = some 100 ∧
    getScreenPos (-1) 0 100 400 400 = (100, 200) := by
  refine ⟨fun x y scale w h => rfl, ?_, ?_⟩
  · show some ((400 / 2) / scenData.limit) = some (100 : ℚ)
    rw [show scenData.limit = 2 from rfl]
    norm_num
  · show ((-1 : ℚ) * 100 + 400 / 2, -(0 : ℚ) * 100 + 400 / 2) = ((100 : ℚ), (200 : ℚ))
    norm_num

/-- Claim C8: the scene trace is drawn for the last body only (coordinate offset
`(n-1)*2`), visits exactly the frames `max(0, f - traceLen) .. f` (never before `0`,
never after `f`), and has `min f traceLen + 1` points; `drawFrame` emits exactly this
trace. -/
theorem c8_trace_window (d : AnimData) (f : Nat) (scale w h : ℚ)
    (hf : f < d.positions.length) :
    traceIndices f = List.range' (f - CONFIG.traceLen) (min f CONFIG.traceLen + 1) ∧
    (∀ j ∈ traceIndices f, f - CONFIG.traceLen ≤ j ∧ j ≤ f) ∧
    (tracePoints d f scale w h).length = min f CONFIG.traceLen + 1 ∧
    tracePoints d f scale w h = (traceIndices f).map (fun j =>
      getScreenPos ((d.positions.getD j []).getD ((d.n - 1) * 2) 0)
        ((d.positions.getD j []).getD ((d.n - 1) * 2 + 1) 0) scale w h) ∧
    (drawFrame (some d) f w h).map FrameRender.trace =
      some (tracePoints d f ((w / 2) / d.limit) w h) := by
  have hcount : f - (f - CONFIG.traceLen) + 1 = min f CONFIG.traceLen + 1 := by
    have h100 : CONFIG.traceLen = 100 := rfl
    rw [h100]
    omega
  refine ⟨?_, ?_, ?_, rfl, rfl⟩
  · rw [traceIndices, hcount]
  · intro j hj
    rw [traceIndices] at hj
    have hj' := List.mem_range'_1.mp hj
    have h100 : CONFIG.traceLen = 100 := rfl
    rw [h100] at hj' ⊢
    omega
  · show ((traceIndices f).map _).length = _
    rw [List.length_map, traceIndices, List.length_range', hcount]

theorem c8_trace_window_witness :
    traceIndices 2 = List.range' (2 - CONFIG.traceLen) (min 2 CONFIG.traceLen + 1) ∧
    (∀ j ∈ traceIndices 2, 2 - CONFIG.traceLen ≤ j ∧ j ≤ 2) ∧
    (tracePoints scenData 2 1 400 400).length = min 2 CONFIG.traceLen + 1 ∧
    tracePoints scenData 2 1 400 400 = (traceIndices 2).map (fun j =>
      getScreenPos ((scenData.positions.getD j []).getD ((scenData.n - 1) * 2) 0)
        ((scenData.positions.getD j []).getD ((scenData.n - 1) * 2 + 1) 0) 1 400 400) ∧
    (drawFrame (some scenData) 2 400 400).map FrameRender.trace =
      some (tracePoints scenData 2 ((400 / 2) / scenData.limit) 400 400) :=
  c8_trace_window scenData 2 1 400 400 (by simp [scenData])

/-- Claim C9: `drawGraph` draws, for every body `k < n`, a polyline colored
`colors[k % colors.length]` through body `k`'s position at every frame `0 .. f`
inclusive, hence with exactly `f + 1` points. -/
theorem c9_trajectory_series (d : AnimData) (k f : Nat) (w h : ℚ)
    (hk : k < d.n) (hf : f < d.positions.length) :
    (drawGraph (some d) f w h).map GraphRender.series = some (graphSeries d f w h) ∧
    (graphSeries d f w h).length = d.n ∧
    (graphSeries d f w h).getD k default =
      (CONFIG.colors.getD (k % CONFIG.colors.length) "",
        trajPoints d k f ((min w h / 2) / d.limit) w h) ∧
    (trajPoints d k f ((min w h / 2) / d.limit) w h).length = f + 1 ∧
    (∀ j, j ≤ f →
      (trajPoints d k f ((min w h / 2) / d.limit) w h).getD j default =
        getScreenPos ((d.positions.getD j []).getD (2 * k) 0)
          ((d.positions.getD j []).getD (2 * k + 1) 0) ((min w h / 2) / d.limit) w h) := by
  have hlen : (graphSeries d f w h).length = d.n := by
    rw [graphSeries, List.length_map, List.length_range]
  refine ⟨rfl, hlen, ?_, ?_, ?_⟩
  · have hk' : k < (graphSeries d f w h).length := by rw [hlen]; exact hk
    rw [List.getD_eq_getElem _ _ hk']
    simp only [graphSeries, List.getElem_map, List.getElem_range]
  · rw [trajPoints, List.length_map, List.length_range]
  · intro j hj
    have hlen' : (trajPoints d k f ((min w h / 2) / d.limit) w h).length = f + 1 := by
      rw [trajPoints, List.length_map, List.length_range]
    have hj' : j < (trajPoints d k f ((min w h / 2) / d.limit) w h).length := by
      rw [hlen']
      omega
    rw [List.getD_eq_getElem _ _ hj']
    simp only [trajPoints, List.getElem_map, List.getElem_range]

theorem c9_trajectory_series_witness :
    (drawGraph (some scenData) 2 400 400).map GraphRender.series =
      some (graphSeries scenData 2 400 400) ∧
    (graphSeries scenData 2 400 400).length = scenData.n ∧
    (graphSeries scenData 2 400 400).getD 0 default =
      (CONFIG.colors.getD (0 % CONFIG.colors.length) "",
        trajPoints scenData 0 2 ((min 400 400 / 2) / scenData.limit) 400 400) ∧
    (trajPoints scenData 0 2 ((min 400 400 / 2) / scenData.limit) 400 400).length = 2 + 1 ∧
    (∀ j, j ≤ 2 →
      (trajPoints scenData 0 2 ((min 400 400 / 2) / scenData.limit) 400 400).getD j default =
        getScreenPos ((scenData.positions.getD j []).getD (2 * 0) 0)
          ((scenData.positions.getD j []).getD (2 * 0 + 1) 0)
          ((min 400 400 / 2) / scenData.limit) 400 400) :=
  c9_trajectory_series scenData 0 2 400 400 (by simp [scenData]) (by simp [scenData])

/-- Claim C10: clicking play/pause with no dataset loaded does not toggle the
play/pause state (which is `false` in every dataset-less reachable state); it
delegates to the run button, whose synchronous part issues the simulation request. -/
theorem c10_play_triggers_run (now : ℚ) (s : State)
    (h1 : s.animData = none) (h2 : s.isPlaying = false) :
    (playClick now s).2 = true ∧
    (playClick now s).1.isPlaying = false ∧
    (playClick now s).1.frameIdx = s.frameIdx ∧
    (playClick now s).1.animData = none := by
  obtain ⟨ad, ip, fi, pst⟩ := s
  have had : ad = none := h1
  have hip : ip = false := h2
  subst had
  subst hip
  exact ⟨rfl, rfl, rfl, rfl⟩

theorem c10_play_triggers_run_witness :
    (playClick 3 initState).2 = true ∧
    (playClick 3 initState).1.isPlaying = false ∧
    (playClick 3 initState).1.frameIdx = initState.frameIdx ∧
    (playClick 3 initState).1.animData = none :=
  c10_play_triggers_run 3 initState rfl rfl

end Pendulum
